import Mathlib

/-!
Verification development for the StockTrack consumption-decrement and
stock-alert engine.

The TypeScript source is shallowly embedded:
* JavaScript numbers are modelled as exact rationals (`ℚ`);
* timestamps (`Date.getTime()` / Firestore `Timestamp`) are modelled as
  integer milliseconds (`ℤ`); an ISO-8601 round trip preserves the value,
  so the string representation of the on-device store is elided;
* optional fields become `Option`;
* the two persisted stores become explicit state records, and every
  store-mutating routine becomes a state-passing function.
-/

namespace StockTrack

/-- Consumption rate, from `Product.consumptionRate` in
`src/lib/local-storage.ts` and `src/lib/firebase/firestore.ts`:
`{ amount: number; period: number; unit: 'hour'|'day'|'week'|'month' }`.
The `unit` is kept as a string because the source compares it against
string literals and must tolerate unrecognized values. -/
structure Rate where
  amount : ℚ
  period : ℚ
  unit : String
  deriving DecidableEq, Repr

/-- Product record of the on-device store (`Product` in
`src/lib/local-storage.ts`).  `lastUpdated`/`lastDecremented` are the ISO
strings of the source, modelled as epoch milliseconds; a missing (or
unparseable, which the source collapses to the epoch just like a missing
one) `lastDecremented` is `none`. -/
structure LProduct where
  id : String
  name : String
  quantity : ℚ
  consumptionRate : Option Rate
  minStockLevel : Option ℚ
  lastUpdated : ℤ
  lastDecremented : Option ℤ
  deriving DecidableEq, Repr

/-- Recognized rate units: `['hour','day','week','month'].includes(rate.unit)`
in `decrementLocalQuantities` (local-storage.ts line 249). -/
def validUnit (u : String) : Bool :=
  u = "hour" || u = "day" || u = "week" || u = "month"

/-- Whole periods elapsed, as computed inline by `decrementLocalQuantities`
(local-storage.ts lines 253-273): the period multiplier defaults to 1 when
non-positive, a non-positive time difference yields 0 periods, otherwise the
difference is converted to hours and floor-divided by the period length
(hour, day = 24 h, week = 7·24 h, month = 30.4375·24 h); an unrecognized
unit leaves 0.  Times are in milliseconds. -/
def computePeriodsElapsed (rate : Rate) (lastAppliedAt now : ℤ) : ℤ :=
  let period : ℚ := if 0 < rate.period then rate.period else 1
  let diffTime : ℤ := now - lastAppliedAt
  if diffTime ≤ 0 then 0
  else
    let diffhours : ℚ := (diffTime : ℚ) / (1000 * 60 * 60)
    if rate.unit = "hour" then ⌊diffhours / period⌋
    else if rate.unit = "day" then ⌊diffhours / (24 * period)⌋
    else if rate.unit = "week" then ⌊diffhours / (7 * 24 * period)⌋
    else if rate.unit = "month" then ⌊diffhours / (30.4375 * 24 * period)⌋
    else 0

/-- One product's treatment by a local decrement pass
(`decrementLocalQuantities`, local-storage.ts lines 226-305): skip when
there is no rate, no stock, a non-positive amount, or an unrecognized unit;
otherwise, when at least one whole period elapsed since `lastDecremented`
(epoch when absent), subtract `periodsPassed * amount` clamped at 0; if the
quantity actually drops, write it together with `lastDecremented = now` and
`lastUpdated = now`, and if it does not drop while stock is positive,
advance `lastDecremented` alone. -/
def decrementProductStep (now : ℤ) (p : LProduct) : LProduct :=
  match p.consumptionRate with
  | none => p
  | some rate =>
    if p.quantity ≤ 0 ∨ rate.amount ≤ 0 ∨ ¬ validUnit rate.unit then p
    else
      let lastDecrementedDate : ℤ := p.lastDecremented.getD 0
      let periodsPassed : ℤ := computePeriodsElapsed rate lastDecrementedDate now
      if 0 < periodsPassed then
        let quantityToDecrement : ℚ := (periodsPassed : ℚ) * rate.amount
        let newQuantity : ℚ := max 0 (p.quantity - quantityToDecrement)
        if newQuantity < p.quantity then
          { p with quantity := newQuantity
                   lastDecremented := some now
                   lastUpdated := now }
        else if 0 < p.quantity then
          { p with lastDecremented := some now }
        else p
      else p

/-- A full local decrement pass (`decrementLocalQuantities`): map the step
over the stored product list.  The source writes the mapped list back only
when some product changed; when none changed the mapped list equals the
stored one, so the resulting store state is the mapped list either way. -/
def decrementLocalQuantities (now : ℤ) (products : List LProduct) : List LProduct :=
  products.map (decrementProductStep now)

/-- Spec-side table: unit lengths in hours (hour = 1, day = 24, week = 168,
month = 730.5), from §4.1 of the specification. -/
def unitLengthInHours (u : String) : ℚ :=
  if u = "hour" then 1
  else if u = "day" then 24
  else if u = "week" then 168
  else if u = "month" then 730.5
  else 0

lemma validUnit_cases {u : String} (h : validUnit u = true) :
    u = "hour" ∨ u = "day" ∨ u = "week" ∨ u = "month" := by
  simpa [validUnit, Bool.or_eq_true, decide_eq_true_eq, or_assoc] using h

/-- When the step writes anything, it stamps `lastDecremented = now`. -/
lemma decrementProductStep_eq_or_stamped (now : ℤ) (p : LProduct) :
    decrementProductStep now p = p ∨
      (decrementProductStep now p).lastDecremented = some now := by
  unfold decrementProductStep
  rcases p.consumptionRate with _ | rate
  · exact Or.inl rfl
  · dsimp only
    split
    · exact Or.inl rfl
    · split
      · split
        · exact Or.inr rfl
        · split
          · exact Or.inr rfl
          · exact Or.inl rfl
      · exact Or.inl rfl

/-- An item whose `lastDecremented` already equals `now` is left untouched:
the time difference is zero, so zero periods elapse. -/
lemma decrementProductStep_fixed_of_stamped (now : ℤ) (p : LProduct)
    (h : p.lastDecremented = some now) : decrementProductStep now p = p := by
  unfold decrementProductStep
  rcases hr : p.consumptionRate with _ | rate
  · rfl
  · dsimp only
    split
    · rfl
    · rw [h]
      simp [computePeriodsElapsed]

lemma decrementProductStep_idem (now : ℤ) (p : LProduct) :
    decrementProductStep now (decrementProductStep now p) =
      decrementProductStep now p := by
  rcases decrementProductStep_eq_or_stamped now p with h | h
  · rw [h, h]
  · exact decrementProductStep_fixed_of_stamped now _ h

/-- A single step never raises the quantity. -/
lemma decrementProductStep_quantity_le (now : ℤ) (p : LProduct) :
    (decrementProductStep now p).quantity ≤ p.quantity := by
  unfold decrementProductStep
  rcases p.consumptionRate with _ | rate
  · exact le_refl _
  · dsimp only
    split
    · exact le_refl _
    · split
      · split
        · next hlt => exact le_of_lt hlt
        · split
          · exact le_refl _
          · exact le_refl _
      · exact le_refl _

end StockTrack

namespace StockTrack

lemma periodsElapsed_twoPerDay_example :
    computePeriodsElapsed ⟨2, 1, "day"⟩ 0 250560000 = 2 := by
  unfold computePeriodsElapsed
  norm_num [show ("day" : String) ≠ "hour" from by decide]

/-- Claim C2: `computePeriodsElapsed(rate, lastAppliedAt, now)` returns 0
whenever `now ≤ lastAppliedAt`, and otherwise floors the elapsed time,
taken in hours, divided by `period × unitLengthInHours(unit)` with unit
lengths hour = 1, day = 24, week = 168, month = 730.5; the single floor at
the end discards the fractional remainder. -/
theorem claim_C2 (rate : Rate) (lastAppliedAt now : ℤ)
    (hunit : validUnit rate.unit = true) (hperiod : 0 < rate.period) :
    (now ≤ lastAppliedAt → computePeriodsElapsed rate lastAppliedAt now = 0) ∧
    (lastAppliedAt < now →
      computePeriodsElapsed rate lastAppliedAt now =
        ⌊(((now - lastAppliedAt : ℤ) : ℚ) / (1000 * 60 * 60)) /
          (rate.period * unitLengthInHours rate.unit)⌋) := by
  obtain ⟨amount, period, unit⟩ := rate
  constructor
  · intro h
    unfold computePeriodsElapsed
    rw [if_pos (by omega)]
  · intro h
    have hdiff : ¬ (now - lastAppliedAt ≤ 0) := by omega
    rcases validUnit_cases hunit with hu | hu | hu | hu <;>
      (subst hu
       unfold computePeriodsElapsed unitLengthInHours
       rw [if_neg hdiff, if_pos hperiod]
       simp only [String.reduceEq, if_true, if_false, reduceIte]) <;>
      ring_nf

/-- Claim C2 witness: rate 2-per-day, 2.9 days (250560000 ms) elapsed from
epoch: the formula of claim C2 applies and yields ⌊69.6 / 24⌋ = 2. -/
theorem claim_C2_witness :
    computePeriodsElapsed ⟨2, 1, "day"⟩ 0 250560000 = 2 := by
  have h := (claim_C2 ⟨2, 1, "day"⟩ 0 250560000 (by decide) (by decide)).2
    (by decide)
  rw [h, show unitLengthInHours "day" = 24 from by decide]
  norm_num

/-- Claim C3: an item picked up by a decrement pass with at least one
elapsed period is stored with quantity `max 0 (quantity − periods × amount)`
— never negative — and with `lastDecremented` set to `now` itself rather
than to the old anchor advanced by whole periods. -/
theorem claim_C3 (now : ℤ) (p : LProduct) (rate : Rate)
    (hr : p.consumptionRate = some rate)
    (hq : 0 < p.quantity) (ha : 0 < rate.amount)
    (hu : validUnit rate.unit = true)
    (hp : 1 ≤ computePeriodsElapsed rate (p.lastDecremented.getD 0) now) :
    (decrementProductStep now p).quantity =
      max 0 (p.quantity -
        (computePeriodsElapsed rate (p.lastDecremented.getD 0) now : ℚ) *
          rate.amount) ∧
    0 ≤ (decrementProductStep now p).quantity ∧
    (decrementProductStep now p).lastDecremented = some now := by
  have hskip : ¬ (p.quantity ≤ 0 ∨ rate.amount ≤ 0 ∨ ¬ validUnit rate.unit) := by
    push_neg
    exact ⟨hq, ha, by simp [hu]⟩
  have hdec : (0 : ℚ) <
      (computePeriodsElapsed rate (p.lastDecremented.getD 0) now : ℚ) *
        rate.amount := by
    have h1 : (1 : ℚ) ≤
        (computePeriodsElapsed rate (p.lastDecremented.getD 0) now : ℚ) := by
      exact_mod_cast hp
    nlinarith
  have hlt : max 0
      (p.quantity -
        (computePeriodsElapsed rate (p.lastDecremented.getD 0) now : ℚ) *
          rate.amount) < p.quantity := by
    rw [max_lt_iff]
    exact ⟨hq, by linarith⟩
  unfold decrementProductStep
  rw [hr]
  dsimp only
  rw [if_neg hskip, if_pos (by omega), if_pos hlt]
  exact ⟨rfl, le_max_left _ _, rfl⟩

/-- Claim C3 witness: rate 2-per-day, quantity 10, 2.9 days elapsed from
the epoch anchor: 2 periods apply, the stored quantity is
max 0 (10 − 2·2) = 6 ≥ 0, and `lastDecremented` becomes `now`. -/
theorem claim_C3_witness :
    (decrementProductStep 250560000
        ⟨"p3", "n", 10, some ⟨2, 1, "day"⟩, none, 0, some 0⟩).quantity = 6 ∧
    (decrementProductStep 250560000
        ⟨"p3", "n", 10, some ⟨2, 1, "day"⟩, none, 0, some 0⟩).lastDecremented =
      some 250560000 := by
  have h := claim_C3 250560000 ⟨"p3", "n", 10, some ⟨2, 1, "day"⟩, none, 0, some 0⟩
    ⟨2, 1, "day"⟩ rfl (by decide) (by decide) (by decide)
    (by rw [show (Option.getD (some (0 : ℤ)) 0) = 0 from rfl,
          periodsElapsed_twoPerDay_example]; decide)
  refine ⟨?_, h.2.2⟩
  rw [h.1, show (Option.getD (some (0 : ℤ)) 0) = 0 from rfl,
    periodsElapsed_twoPerDay_example]
  norm_num

/-- Claim C8: a decrement pass is idempotent at a fixed time point: a
second run at the same `now`, reading the state written by the first,
changes no item's quantity (indeed it changes nothing at all). -/
theorem claim_C8 :
    (∀ (now : ℤ) (p : LProduct),
      (decrementProductStep now (decrementProductStep now p)).quantity =
        (decrementProductStep now p).quantity) ∧
    (∀ (now : ℤ) (products : List LProduct),
      decrementLocalQuantities now (decrementLocalQuantities now products) =
        decrementLocalQuantities now products) := by
  refine ⟨fun now p => by rw [decrementProductStep_idem], fun now products => ?_⟩
  unfold decrementLocalQuantities
  rw [List.map_map]
  exact List.map_congr_left fun p _ => decrementProductStep_idem now p

/-- Claim C9 counterexample: an item whose rate has `period = 0` (malformed
per the claim) with amount 1 per day and two days elapsed is NOT skipped:
the pass substitutes period 1, decrements the quantity from 10 to 8 and
advances `lastDecremented`. -/
theorem claim_C9_counterexample :
    (decrementProductStep 172800000
        ⟨"c9", "n", 10, some ⟨1, 0, "day"⟩, none, 0, some 0⟩).quantity ≠
      (10 : ℚ) ∧
    (decrementProductStep 172800000
        ⟨"c9", "n", 10, some ⟨1, 0, "day"⟩, none, 0, some 0⟩).lastDecremented ≠
      some 0 := by
  have hpe : computePeriodsElapsed ⟨1, 0, "day"⟩ 0 172800000 = 2 := by
    unfold computePeriodsElapsed
    norm_num [show ("day" : String) ≠ "hour" from by decide]
  unfold decrementProductStep
  dsimp only
  rw [if_neg (by push_neg; refine ⟨by norm_num, by norm_num, by decide⟩)]
  rw [show (Option.getD (some (0 : ℤ)) 0) = 0 from rfl, hpe]
  norm_num

/-- Claim C9 amended: an item whose rate has a non-positive `amount` or an
unrecognized unit is skipped entirely — quantity and `lastDecremented`
unchanged; a non-positive `period`, however, is replaced by the default 1
rather than causing a skip. -/
theorem claim_C9_amended (now : ℤ) (p : LProduct) (rate : Rate)
    (hr : p.consumptionRate = some rate)
    (hbad : rate.amount ≤ 0 ∨ validUnit rate.unit = false) :
    decrementProductStep now p = p := by
  unfold decrementProductStep
  rw [hr]
  dsimp only
  rw [if_pos]
  rcases hbad with h | h
  · exact Or.inr (Or.inl h)
  · exact Or.inr (Or.inr (by simp [h]))

/-- Claim C9 amended witness: an item with `rate.amount = 0` is untouched
across a large elapsed time. -/
theorem claim_C9_amended_witness :
    decrementProductStep 999999999999
        ⟨"w9", "n", 10, some ⟨0, 1, "day"⟩, none, 0, some 0⟩ =
      ⟨"w9", "n", 10, some ⟨0, 1, "day"⟩, none, 0, some 0⟩ :=
  claim_C9_amended 999999999999 _ ⟨0, 1, "day"⟩ rfl (Or.inl (by decide))

/-! ### The remote (Firestore) store

Embedding of the Firestore-backed engine in
`src/lib/firebase/firestore.ts` (the revision containing `period`,
`minStockLevel` and `reorderQuantity`): the `products` and `notifications`
collections become two lists keyed by document id, and each Firestore
routine becomes a state-passing function on that pair. -/

/-- Firestore `Product` document (firestore.ts): `name`, `consumptionRate`,
`minStockLevel`, `reorderQuantity`, `lastDecremented` are all optional. -/
structure FProduct where
  id : String
  name : Option String
  quantity : ℚ
  consumptionRate : Option Rate
  minStockLevel : Option ℚ
  reorderQuantity : Option ℚ
  lastUpdated : ℤ
  lastDecremented : Option ℤ
  deriving DecidableEq, Repr

/-- Firestore `Notification` document; its id is the owning product's id
(`doc(db, 'notifications', productId)`). -/
structure FNotif where
  productId : String
  productName : String
  quantity : ℚ
  timestamp : ℤ
  acknowledged : Bool
  read : Bool
  deriving DecidableEq, Repr

/-- The two Firestore collections. -/
structure FDB where
  products : List FProduct
  notifications : List FNotif
  deriving DecidableEq, Repr

def findById : List FProduct → String → Option FProduct
  | [], _ => none
  | p :: rest, pid => if p.id = pid then some p else findById rest pid

def findByPid : List FNotif → String → Option FNotif
  | [], _ => none
  | n :: rest, pid => if n.productId = pid then some n else findByPid rest pid

/-- `getDoc(doc(db, 'products', pid))`. -/
def findProduct (db : FDB) (pid : String) : Option FProduct :=
  findById db.products pid

/-- `getDoc(doc(db, 'notifications', pid))`. -/
def findNotif (db : FDB) (pid : String) : Option FNotif :=
  findByPid db.notifications pid

def removeNotif (pid : String) : List FNotif → List FNotif
  | [] => []
  | n :: rest =>
    if n.productId = pid then removeNotif pid rest else n :: removeNotif pid rest

/-- `deleteDoc(notificationRef)`. -/
def deleteNotif (pid : String) (db : FDB) : FDB :=
  { db with notifications := removeNotif pid db.notifications }

def replaceNotif (n : FNotif) : List FNotif → List FNotif
  | [] => []
  | m :: rest =>
    if m.productId = n.productId then n :: replaceNotif n rest
    else m :: replaceNotif n rest

/-- `setDoc(notificationRef, data, { merge: true })` with every field of
the document supplied: overwrite the record when it exists, create it
otherwise. -/
def setNotifMerge (n : FNotif) (db : FDB) : FDB :=
  match findByPid db.notifications n.productId with
  | some _ => { db with notifications := replaceNotif n db.notifications }
  | none => { db with notifications := n :: db.notifications }

def setQuantityById (pid : String) (q : ℚ) (t : ℤ) : List FProduct → List FProduct
  | [] => []
  | p :: rest =>
    if p.id = pid then { p with quantity := q, lastUpdated := t } :: setQuantityById pid q t rest
    else p :: setQuantityById pid q t rest

/-- `checkLowStock` (firestore.ts lines 920-1047) as invoked by the engine:
no call site supplies `productMinStockLevel`, so the guard on line 944 is
always true and quantity, name and threshold are re-read from the store.
A vanished product deletes any stale notification.  Low stock
(`quantity <= (minStockLevel || 0)`, line 979) creates/refreshes the
notification with `acknowledged: false` unless an acknowledged one exists;
otherwise an existing notification is deleted.  The audio alert and the
push notifications of the low branch are external I/O outside the stores
and are not part of the state. -/
def checkLowStock (now : ℤ) (productId : String) (db : FDB) : FDB :=
  match findProduct db productId with
  | none => deleteNotif productId db
  | some p =>
    let quantity := p.quantity
    let name := p.name
    let minStockLevel := p.minStockLevel
    let isAcknowledged : Bool :=
      match findNotif db productId with
      | some n => n.acknowledged
      | none => false
    if quantity ≤ minStockLevel.getD 0 then
      if isAcknowledged then db
      else
        setNotifMerge
          ⟨productId, name.getD "", quantity, now, false, false⟩ db
    else
      match findNotif db productId with
      | some _ => deleteNotif productId db
      | none => db

/-- `AddStock` (firestore.ts lines 1049-1137) as invoked by the engine:
the local `reorderQuantity` is still `undefined` at the guard on line
1070, so the product is always re-read from the store.  When stock is at
or below `minStockLevel` (a JS comparison that is false when
`minStockLevel` is `undefined`) and no acknowledged notification exists,
the product's quantity is raised to `quantity + reorderQuantity` and an
existing notification is deleted; when stock is above the threshold an
existing notification is deleted.  The case in which `reorderQuantity` is
absent while the update fires would store the float `NaN`; that state has
no rational counterpart, so the function returns `none` there. -/
def AddStock (now : ℤ) (productId : String) (db : FDB) : Option FDB :=
  match findProduct db productId with
  | none => some (deleteNotif productId db)
  | some p =>
    let quantity := p.quantity
    let notifExists : Bool := (findNotif db productId).isSome
    let isAcknowledged : Bool :=
      match findNotif db productId with
      | some n => n.acknowledged
      | none => false
    let isLow : Bool :=
      match p.minStockLevel with
      | some m => decide (quantity ≤ m)
      | none => false
    if isLow then
      if isAcknowledged then some db
      else
        match p.reorderQuantity with
        | some r =>
          let db1 : FDB :=
            { db with products := setQuantityById productId (quantity + r) now db.products }
          some (if notifExists then deleteNotif productId db1 else db1)
        | none => none
    else
      some (if notifExists then deleteNotif productId db else db)

/-- The Firestore query of `decrementQuantities` (lines 734-737):
products with a non-null `consumptionRate` and `quantity >= 0`. -/
def remoteEligible (p : FProduct) : Bool :=
  p.consumptionRate.isSome && decide (0 ≤ p.quantity)

/-- An update staged into the write batch for one product. -/
inductive BatchOp where
  | quant (newQuantity : ℚ)
  | stamp
  deriving DecidableEq, Repr

/-- The batch update staged for one snapshot document (lines 752-848):
skip when `rate.amount <= 0` or `rate.period <= 0` (line 778) or no time
elapsed; lines 780-802 then repeat the period arithmetic of the local pass
verbatim (default period, hour/day/week/month, floor), embedded above as
`computePeriodsElapsed`.  With at least one period elapsed, a strictly
smaller clamped quantity stages a quantity-and-timestamps update, and an
unchanged quantity with positive stock stages a timestamp-only update. -/
def remoteStagedOp (now : ℤ) (p : FProduct) : Option BatchOp :=
  match p.consumptionRate with
  | none => none
  | some rate =>
    if rate.amount ≤ 0 ∨ rate.period ≤ 0 then none
    else
      let periodsPassed : ℤ :=
        computePeriodsElapsed rate (p.lastDecremented.getD 0) now
      if 0 < periodsPassed then
        let newQuantity : ℚ :=
          max 0 (p.quantity - (periodsPassed : ℚ) * rate.amount)
        if newQuantity < p.quantity then some (.quant newQuantity)
        else if 0 < p.quantity then some .stamp
        else none
      else none

/-- Effect of the staged batch update on one product document. -/
def remoteApplyOp (now : ℤ) (p : FProduct) : FProduct :=
  if remoteEligible p then
    match remoteStagedOp now p with
    | some (.quant q) =>
      { p with quantity := q, lastDecremented := some now, lastUpdated := now }
    | some .stamp => { p with lastDecremented := some now }
    | none => p
  else p

/-- `updatesMade`: number of quantity updates staged (line 821). -/
def remoteUpdatesMade (now : ℤ) (db : FDB) : ℕ :=
  ((db.products.filter remoteEligible).filter
    (fun p =>
      match remoteStagedOp now p with
      | some (.quant _) => true
      | _ => false)).length

/-- The batch commit (lines 852-854): applied only when `updatesMade > 0`;
each staged update targets its own document id, so committing the batch
rewrites each eligible document by its staged op. -/
def remoteBatchStage (now : ℤ) (db : FDB) : FDB :=
  if 0 < remoteUpdatesMade now db then
    { db with products := db.products.map (remoteApplyOp now) }
  else db

/-- The post-commit loop (lines 857-877): for every document of the
original query snapshot, in order, run `checkLowStock` and then
`AddStock`; both the `updatesMade > 0` branch and the else branch perform
this same sequence. -/
def remoteAfterLoop (now : ℤ) : List FProduct → FDB → Option FDB
  | [], db => some db
  | p :: rest, db =>
    (AddStock now p.id (checkLowStock now p.id db)).bind (remoteAfterLoop now rest)

/-- `decrementQuantities` (firestore.ts lines 725-883): snapshot the
eligible products, stage and commit the batch, then run the
`checkLowStock` / `AddStock` loop over the snapshot. -/
def decrementQuantities (now : ℤ) (db : FDB) : Option FDB :=
  let snapshot := db.products.filter remoteEligible
  remoteAfterLoop now snapshot (remoteBatchStage now db)

lemma findByPid_removeNotif (pid : String) (l : List FNotif) :
    findByPid (removeNotif pid l) pid = none := by
  induction l with
  | nil => rfl
  | cons n rest ih =>
    unfold removeNotif
    split
    · exact ih
    · next h => unfold findByPid; rw [if_neg h]; exact ih

lemma findById_setQuantityById (pid : String) (q : ℚ) (t : ℤ)
    (l : List FProduct) :
    findById (setQuantityById pid q t l) pid =
      (findById l pid).map (fun p => { p with quantity := q, lastUpdated := t }) := by
  induction l with
  | nil => rfl
  | cons p rest ih =>
    by_cases h : p.id = pid
    · simp [setQuantityById, findById, h]
    · simp [setQuantityById, findById, h, ih]

/-- Claim C4 counterexample: an item with `quantity = 5`, no
`minStockLevel` and no existing alert.  The claim's default threshold of 10
would create an alert (5 ≤ 10); `checkLowStock` compares against
`minStockLevel || 0` = 0, so nothing is written and no alert exists
afterwards. -/
theorem claim_C4_counterexample :
    checkLowStock 5000 "a" ⟨[⟨"a", some "A", 5, none, none, none, 0, none⟩], []⟩ =
      ⟨[⟨"a", some "A", 5, none, none, none, 0, none⟩], []⟩ ∧
    findNotif
      (checkLowStock 5000 "a" ⟨[⟨"a", some "A", 5, none, none, none, 0, none⟩], []⟩)
      "a" = none := by
  constructor <;> decide

/-- Behaviour of `checkLowStock` on an item with no alert on file. -/
lemma checkLowStock_noAlert (now : ℤ) (db : FDB) (pid : String) (p : FProduct)
    (hp : findProduct db pid = some p) (hn : findNotif db pid = none) :
    (p.quantity ≤ p.minStockLevel.getD 0 →
      findNotif (checkLowStock now pid db) pid =
        some ⟨pid, p.name.getD "", p.quantity, now, false, false⟩) ∧
    (p.minStockLevel.getD 0 < p.quantity → checkLowStock now pid db = db) := by
  constructor
  · intro hlow
    unfold checkLowStock
    rw [hp]
    dsimp only
    rw [hn]
    rw [if_pos hlow]
    dsimp only
    unfold setNotifMerge
    dsimp only
    rw [show findByPid db.notifications pid = none from hn]
    simp [findNotif, findByPid]
  · intro hhigh
    unfold checkLowStock
    rw [hp]
    dsimp only
    rw [hn, if_neg (not_le.mpr hhigh)]

/-- Claim C4 amended: for an item with no existing alert, `checkLowStock`
creates an alert carrying `acknowledged = false` and the snapshot quantity
exactly when the quantity is at or below the threshold
`minStockLevel || 0` — i.e. the default for an absent `minStockLevel` is
0, not the engine-wide constant 10 — and performs no write when the
quantity is above that threshold. -/
theorem claim_C4_amended (now : ℤ) (db : FDB) (pid : String) (p : FProduct)
    (hp : findProduct db pid = some p) (hn : findNotif db pid = none) :
    (p.quantity ≤ p.minStockLevel.getD 0 →
      findNotif (checkLowStock now pid db) pid =
        some ⟨pid, p.name.getD "", p.quantity, now, false, false⟩) ∧
    (p.minStockLevel.getD 0 < p.quantity → checkLowStock now pid db = db) :=
  checkLowStock_noAlert now db pid p hp hn

/-- Claim C4 amended witness: quantity 5 against `minStockLevel = 10` with
no existing alert creates the alert `acknowledged = false, quantity = 5`;
quantity 5 against the absent-threshold default 0 writes nothing. -/
theorem claim_C4_amended_witness :
    findNotif
      (checkLowStock 7000 "a"
        ⟨[⟨"a", some "A", 5, none, some 10, none, 0, none⟩], []⟩) "a" =
      some ⟨"a", "A", 5, 7000, false, false⟩ := by
  have h := (claim_C4_amended 7000
    ⟨[⟨"a", some "A", 5, none, some 10, none, 0, none⟩], []⟩ "a"
    ⟨"a", some "A", 5, none, some 10, none, 0, none⟩ (by decide) (by decide)).1
    (by decide)
  exact h

/-- Claim C5: when an item's quantity is at or below its threshold and its
existing alert is acknowledged, `checkLowStock` leaves both stores — and
in particular every field of the stored alert — unchanged. -/
theorem claim_C5 (now : ℤ) (db : FDB) (pid : String) (p : FProduct) (n : FNotif)
    (hp : findProduct db pid = some p) (hn : findNotif db pid = some n)
    (hack : n.acknowledged = true)
    (hlow : p.quantity ≤ p.minStockLevel.getD 0) :
    checkLowStock now pid db = db ∧
    findNotif (checkLowStock now pid db) pid = some n := by
  have h : checkLowStock now pid db = db := by
    unfold checkLowStock
    rw [hp]
    dsimp only
    rw [hn, if_pos hlow]
    simp [hack]
  exact ⟨h, by rw [h, hn]⟩

/-- Claim C5 witness: quantity 5, threshold 10, acknowledged alert on
file: the check is a no-op and the alert record keeps its fields. -/
theorem claim_C5_witness :
    checkLowStock 9000 "a"
        ⟨[⟨"a", some "A", 5, none, some 10, none, 0, none⟩],
          [⟨"a", "A", 5, 1000, true, false⟩]⟩ =
      ⟨[⟨"a", some "A", 5, none, some 10, none, 0, none⟩],
        [⟨"a", "A", 5, 1000, true, false⟩]⟩ :=
  (claim_C5 9000
    ⟨[⟨"a", some "A", 5, none, some 10, none, 0, none⟩],
      [⟨"a", "A", 5, 1000, true, false⟩]⟩ "a"
    ⟨"a", some "A", 5, none, some 10, none, 0, none⟩
    ⟨"a", "A", 5, 1000, true, false⟩ (by decide) (by decide) rfl (by decide)).1

/-- Claim C6: when an item's quantity is strictly above its threshold,
`checkLowStock` deletes any existing alert for it whatever its
`acknowledged` flag; after a later write drops the quantity back to or
below the threshold, the next check creates a brand-new alert with
`acknowledged = false`. -/
theorem claim_C6 (now nowTwo : ℤ) (db : FDB) (pid : String) (p : FProduct)
    (n : FNotif) (qDrop : ℚ)
    (hp : findProduct db pid = some p) (hn : findNotif db pid = some n)
    (hhigh : p.minStockLevel.getD 0 < p.quantity) :
    findNotif (checkLowStock now pid db) pid = none ∧
    (qDrop ≤ p.minStockLevel.getD 0 →
      findNotif
        (checkLowStock nowTwo pid
          { products :=
              setQuantityById pid qDrop nowTwo (checkLowStock now pid db).products,
            notifications := (checkLowStock now pid db).notifications }) pid =
        some ⟨pid, p.name.getD "", qDrop, nowTwo, false, false⟩) := by
  have hstep : checkLowStock now pid db = deleteNotif pid db := by
    unfold checkLowStock
    rw [hp]
    dsimp only
    rw [hn, if_neg (not_le.mpr hhigh)]
  constructor
  · rw [hstep]
    exact findByPid_removeNotif pid db.notifications
  · intro hdrop
    rw [hstep]
    have hfindP :
        findProduct
          (⟨setQuantityById pid qDrop nowTwo (deleteNotif pid db).products,
            (deleteNotif pid db).notifications⟩ : FDB) pid =
          some { p with quantity := qDrop, lastUpdated := nowTwo } := by
      unfold findProduct
      dsimp only [deleteNotif]
      rw [findById_setQuantityById, show findById db.products pid = some p from hp]
      rfl
    have hfindN :
        findNotif
          (⟨setQuantityById pid qDrop nowTwo (deleteNotif pid db).products,
            (deleteNotif pid db).notifications⟩ : FDB) pid = none := by
      unfold findNotif
      exact findByPid_removeNotif pid db.notifications
    have h := (checkLowStock_noAlert nowTwo _ pid _ hfindP hfindN).1 hdrop
    exact h

/-- Claim C6 witness: quantity 12 over threshold 10 deletes the
acknowledged alert; a later drop to 5 creates a fresh alert with
`acknowledged = false`. -/
theorem claim_C6_witness :
    findNotif
      (checkLowStock 1000 "a"
        ⟨[⟨"a", some "A", 12, none, some 10, none, 0, none⟩],
          [⟨"a", "A", 5, 500, true, false⟩]⟩) "a" = none ∧
    findNotif
      (checkLowStock 2000 "a"
        { products :=
            setQuantityById "a" 5 2000
              (checkLowStock 1000 "a"
                ⟨[⟨"a", some "A", 12, none, some 10, none, 0, none⟩],
                  [⟨"a", "A", 5, 500, true, false⟩]⟩).products,
          notifications :=
            (checkLowStock 1000 "a"
              ⟨[⟨"a", some "A", 12, none, some 10, none, 0, none⟩],
                [⟨"a", "A", 5, 500, true, false⟩]⟩).notifications }) "a" =
      some ⟨"a", "A", 5, 2000, false, false⟩ := by
  have h := claim_C6 1000 2000
    ⟨[⟨"a", some "A", 12, none, some 10, none, 0, none⟩],
      [⟨"a", "A", 5, 500, true, false⟩]⟩ "a"
    ⟨"a", some "A", 12, none, some 10, none, 0, none⟩
    ⟨"a", "A", 5, 500, true, false⟩ 5 (by decide) (by decide) (by decide)
  exact ⟨h.1, h.2 (by decide)⟩

lemma forall₂_map_of_pointwise {α : Type} (R : α → α → Prop) (f : α → α)
    (h : ∀ x, R (f x) x) : ∀ l : List α, List.Forall₂ R (l.map f) l := by
  intro l
  induction l with
  | nil => exact List.Forall₂.nil
  | cons x rest ih => exact List.Forall₂.cons (h x) ih

lemma forall₂_refl_of_pointwise {α : Type} (R : α → α → Prop)
    (h : ∀ x, R x x) : ∀ l : List α, List.Forall₂ R l l := by
  intro l
  induction l with
  | nil => exact List.Forall₂.nil
  | cons x rest ih => exact List.Forall₂.cons (h x) ih

/-- A quantity op is staged only when the clamped value is strictly
smaller than the stored quantity. -/
lemma remoteStagedOp_quant_lt (now : ℤ) (p : FProduct) (q : ℚ)
    (h : remoteStagedOp now p = some (.quant q)) : q < p.quantity := by
  unfold remoteStagedOp at h
  rcases hr : p.consumptionRate with _ | rate
  · rw [hr] at h
    exact Option.noConfusion h
  · rw [hr] at h
    dsimp only at h
    split at h
    · exact Option.noConfusion h
    · split at h
      · split at h
        · next hlt =>
          injection h with h1
          injection h1 with h2
          rw [← h2]
          exact hlt
        · split at h
          · injection h with h1
            exact BatchOp.noConfusion h1
          · exact Option.noConfusion h
      · exact Option.noConfusion h

/-- The per-document batch update of the remote pass never raises a
quantity. -/
lemma remoteApplyOp_quantity_le (now : ℤ) (p : FProduct) :
    (remoteApplyOp now p).quantity ≤ p.quantity := by
  unfold remoteApplyOp
  by_cases he : remoteEligible p = true
  · rw [if_pos he]
    rcases hop : remoteStagedOp now p with _ | op
    · simp [hop]
    · cases op with
      | quant q =>
        simp only [hop]
        exact le_of_lt (remoteStagedOp_quant_lt now p q hop)
      | stamp => simp [hop]
  · rw [if_neg he]

/-- Claim C1 counterexample: a full remote decrement pass over one product
(quantity 10, rate 2 per day, `minStockLevel` 9, `reorderQuantity` 50, one
day elapsed, no alert on file) INCREASES the stored quantity from 10 to
58: the batch lowers it to 8, and the pass's `AddStock` step then adds the
reorder quantity. -/
theorem claim_C1_counterexample :
    (decrementQuantities 86400000
        ⟨[⟨"a", some "A", 10, some ⟨2, 1, "day"⟩, some 9, some 50, 0, some 0⟩],
          []⟩).map (fun db => (findProduct db "a").map (·.quantity)) =
      some (some 58) ∧
    (findProduct
        ⟨[⟨"a", some "A", 10, some ⟨2, 1, "day"⟩, some 9, some 50, 0, some 0⟩],
          []⟩ "a").map (·.quantity) = some 10 ∧
    (10 : ℚ) < 58 := by
  refine ⟨?_, by decide, by decide⟩
  have hdh : ("day" : String) ≠ "hour" := by decide
  norm_num [decrementQuantities, remoteAfterLoop, remoteBatchStage,
    remoteUpdatesMade, remoteApplyOp, remoteStagedOp, remoteEligible,
    computePeriodsElapsed, checkLowStock, AddStock, findProduct, findNotif,
    findById, findByPid, setNotifMerge, deleteNotif, removeNotif,
    setQuantityById, replaceNotif, List.filter, Option.bind, hdh]

/-- Claim C1 amended: the decrement computations themselves are monotone —
a local step and pass, any chain of local steps, and the staged batch of
the remote pass never increase any item's quantity.  The full remote pass
is NOT monotone, because after the batch it invokes `AddStock`, which adds
`reorderQuantity` to a low-stock unacknowledged item
(see the counterexample). -/
theorem claim_C1_amended :
    (∀ (now : ℤ) (p : LProduct),
      (decrementProductStep now p).quantity ≤ p.quantity) ∧
    (∀ (now : ℤ) (products : List LProduct),
      List.Forall₂ (fun a b => a.quantity ≤ b.quantity)
        (decrementLocalQuantities now products) products) ∧
    (∀ (nows : List ℤ) (p : LProduct),
      (nows.foldl (fun q n => decrementProductStep n q) p).quantity ≤
        p.quantity) ∧
    (∀ (now : ℤ) (p : FProduct),
      (remoteApplyOp now p).quantity ≤ p.quantity) ∧
    (∀ (now : ℤ) (db : FDB),
      List.Forall₂ (fun a b => a.quantity ≤ b.quantity)
        (remoteBatchStage now db).products db.products) := by
  refine ⟨decrementProductStep_quantity_le, ?_, ?_, remoteApplyOp_quantity_le, ?_⟩
  · intro now products
    exact forall₂_map_of_pointwise _ _ (decrementProductStep_quantity_le now) products
  · intro nows
    induction nows with
    | nil => exact fun p => le_refl _
    | cons n rest ih =>
      intro p
      exact le_trans (ih (decrementProductStep n p))
        (decrementProductStep_quantity_le n p)
  · intro now db
    unfold remoteBatchStage
    split
    · exact forall₂_map_of_pointwise _ _ (remoteApplyOp_quantity_le now) db.products
    · exact forall₂_refl_of_pointwise
        (fun (a b : FProduct) => a.quantity ≤ b.quantity)
        (fun x => le_refl x.quantity) db.products

/-! ### The sync scheduler

Embedding of `usePeriodicSync` / `runSyncTasks`
(`src/hooks/use-periodic-sync.ts` lines 17-65) for the local backend.
`runSyncTasks` captures `now = Date.now()`, starts a local pass when
`now - lastLocalRun.current > LOCAL_DECREMENT_INTERVAL / 2`, and writes
`lastLocalRun.current = now` only after the awaited pass returns.  Both
event sources (the repeating timer and the foreground transition) invoke
the same `runSyncTasks`; in the JavaScript event loop a second invocation
can begin while the first is suspended at its `await`, so scheduler
evolution is a sequence of trigger and finish events interleaved at those
suspension points. -/

/-- Process-local scheduler state: `lastLocalRun` (a `useRef(0)`), and the
captured start times of local passes currently in flight. -/
structure SchedState where
  lastLocalRun : ℤ
  inFlightLocal : List ℤ
  deriving DecidableEq, Repr

/-- `LOCAL_DECREMENT_INTERVAL = 15 * 60 * 1000`. -/
def localDecrementInterval : ℤ := 15 * 60 * 1000

/-- Scheduler events: a trigger (timer tick or foreground transition)
entering `runSyncTasks` at time `now`, or the local pass started at
`start` returning from its `await` (whereupon `lastLocalRun` is set to
that captured `now`). -/
inductive SchedEvent where
  | trigger (now : ℤ)
  | finish (start : ℤ)
  deriving DecidableEq, Repr

/-- One scheduler transition.  A trigger starts a pass iff the captured
time exceeds `lastLocalRun` by more than half the interval (the source's
sole guard); nothing inspects whether a pass is already in flight.  A
finish removes the pass and records its start time as `lastLocalRun`. -/
def schedStep (s : SchedState) : SchedEvent → SchedState
  | .trigger now =>
    if localDecrementInterval / 2 < now - s.lastLocalRun then
      { s with inFlightLocal := now :: s.inFlightLocal }
    else s
  | .finish start =>
    if start ∈ s.inFlightLocal then
      { lastLocalRun := start, inFlightLocal := s.inFlightLocal.erase start }
    else s

/-- Run the scheduler over a sequence of events. -/
def schedExec (s : SchedState) (events : List SchedEvent) : SchedState :=
  events.foldl schedStep s

/-- Initial state: `useRef<number>(0)` and no pass running. -/
def schedInit : SchedState := ⟨0, []⟩

/-- Claim C7 counterexample: from the initial state, a trigger at
t = 1000000 starts a local pass; before it finishes, a second trigger at
t = 1000001 is NOT dropped — `lastLocalRun` is still 0, so the interval
guard passes and a second, overlapping pass starts (two passes in
flight). -/
theorem claim_C7_counterexample :
    (schedExec schedInit [.trigger 1000000]).inFlightLocal.length = 1 ∧
    (schedExec schedInit
        [.trigger 1000000, .trigger 1000001]).inFlightLocal.length = 2 := by
  constructor <;> decide

/-- Claim C7 amended: the scheduler has no single-flight guard; the only
guard is interval-based on the last completed run: a trigger whose time is
within `LOCAL_DECREMENT_INTERVAL / 2` of `lastLocalRun` is dropped
(state unchanged, no pass started), and a later trigger starts a pass even
while one is in flight (see the counterexample). -/
theorem claim_C7_amended (s : SchedState) (now : ℤ)
    (h : now - s.lastLocalRun ≤ localDecrementInterval / 2) :
    schedStep s (.trigger now) = s := by
  show (if localDecrementInterval / 2 < now - s.lastLocalRun then
      { s with inFlightLocal := now :: s.inFlightLocal } else s) = s
  rw [if_neg (not_lt.mpr h)]

/-- Claim C7 amended witness: right after a pass completed at t = 1000000,
a trigger at t = 1000001 is dropped even though another pass is running. -/
theorem claim_C7_amended_witness :
    schedStep ⟨1000000, [900000]⟩ (.trigger 1000001) = ⟨1000000, [900000]⟩ :=
  claim_C7_amended ⟨1000000, [900000]⟩ 1000001 (by decide)

/-! ### Reading the on-device store

Embedding of `getAllProducts` (`src/lib/local-storage.ts` lines 31-53).
The stored payload under the products key is whatever string a previous
writer left there; for this reader it is classified by how `JSON.parse`
and `Array.isArray` treat it. -/

/-- A stored payload: a JSON array of products, some other well-formed
JSON value, or a string `JSON.parse` throws on. -/
inductive StoredValue where
  | arr (products : List LProduct)
  | nonArray
  | malformed
  deriving DecidableEq, Repr

/-- `JSON.parse` followed by the `Array.isArray` test: `some` products for
an array, `none` for a non-array value, a thrown error for a malformed
payload. -/
def parseStored : StoredValue → Except String (Option (List LProduct))
  | .arr l => .ok (some l)
  | .nonArray => .ok none
  | .malformed => .error "SyntaxError"

/-- The `try` block of `getAllProducts`: read the key (absent key yields
`[]`, storage untouched), parse, return the array as-is, and for a
non-array payload remove the corrupted entry and return `[]`.  The result
carries the storage state after the call. -/
def getAllProductsAux (storage : Option StoredValue) :
    Except String (List LProduct × Option StoredValue) :=
  match storage with
  | some v =>
    match parseStored v with
    | .ok (some l) => .ok (l, storage)
    | .ok none => .ok ([], none)
    | .error e => .error e
  | none => .ok ([], storage)

/-- `getAllProducts` with its `catch`: any thrown error is swallowed and
`[]` is returned with the storage untouched (the `removeItem` inside the
catch is commented out in the source). -/
def getAllProducts (storage : Option StoredValue) :
    List LProduct × Option StoredValue :=
  match getAllProductsAux storage with
  | .ok r => r
  | .error _ => ([], storage)

/-- Claim C10: `getAllProducts` is total and never propagates an error:
an absent key yields `[]`, a well-formed array payload is returned as
parsed with storage untouched, a non-array payload yields `[]` and removes
the corrupted entry, and an unparseable payload yields `[]` with storage
untouched. -/
theorem claim_C10 :
    getAllProducts none = ([], none) ∧
    (∀ l : List LProduct,
      getAllProducts (some (.arr l)) = (l, some (.arr l))) ∧
    getAllProducts (some .nonArray) = ([], none) ∧
    getAllProducts (some .malformed) = ([], some .malformed) :=
  ⟨rfl, fun _ => rfl, rfl, rfl⟩

end StockTrack
